import Mathlib

set_option autoImplicit false

namespace Conclave

/-!
Shallow embedding of the SFU control plane of the conclave repository:
the administrative HTTP surface (createSfuApp in src/unnamed/part_004,
lines 1-139) and the server lifecycle (createSfuServer in
src/unnamed/part_004, lines 140-233).  The room registry and admission
algorithm are not part of the provided sources; where a claim needs
them they are modelled from the specification and marked as such.
-/

/-- A media-engine worker handle.  The HTTP layer reads only `closed`
(part_004 line 61); `roomCount` is the per-worker room load from the
data model; `closeThrows` models whether the native `worker.close()`
call raises (part_004 lines 213-219 guard against that). -/
structure Worker where
  id : Nat
  closed : Bool
  roomCount : Nat
  closeThrows : Bool
deriving DecidableEq, Repr

/-- One participant's connection state within a room. -/
structure Session where
  id : String
  displayName : String
deriving DecidableEq, Repr

/-- A room record as read by the HTTP layer (part_004 lines 90-95 read
`id`, `clientId`, `clientCount`); `workerId` and `sessions` come from
the data model (§3 of the specification). -/
structure Room where
  id : String
  clientId : String
  workerId : Nat
  sessions : List Session
  clientCount : Nat
deriving DecidableEq, Repr

/-- The process-wide fleet state (`SfuState`): the worker list, the room
registry (a map iterated in insertion order, modelled as a list), and
the draining flag. -/
structure SfuState where
  workers : List Worker
  rooms : List Room
  isDraining : Bool
deriving DecidableEq, Repr

/-- The subset of the configuration read by the embedded handlers. -/
structure Config where
  port : Nat
  sfuSecret : String
  instanceId : String
  version : String
  draining : Bool
deriving DecidableEq, Repr

/-- HTTP request methods distinguished by the handlers. -/
inductive Method
  | GET
  | POST
  | OPTIONS
  | otherMethod
deriving DecidableEq, Repr

/-- A JSON value, used for request bodies handed to the /drain handler
(`await request.json()`). -/
inductive JsonVal
  | jnull
  | jbool (b : Bool)
  | jnum (n : Int)
  | jstr (s : String)
  | jarr (elems : List JsonVal)
  | jobj (fields : List (String × JsonVal))

/-- An incoming request: method, URL pathname, the two headers the
handlers read (`x-sfu-secret`, `x-sfu-client`; `none` models an absent
header, as `headers.get` returns `null`), and the parsed JSON body
(`none` models a body that fails to parse). -/
structure Request where
  method : Method
  path : String
  secretHeader : Option String
  clientHeader : Option String
  body : Option JsonVal

/-- One entry of the /rooms listing: room id and client count only
(part_004 lines 92-95). -/
structure RoomEntry where
  id : String
  clients : Nat
deriving DecidableEq, Repr

/-- The JSON response bodies produced by the handlers, one constructor
per `jsonResponse` call shape in part_004. -/
inductive RespBody
  | errorMsg (msg : String)
  | health (status : String) (timestamp : String) (uptime : Nat) (port : Nat)
      (total : Nat) (healthy : Nat) (closed : Nat)
  | roomList (rooms : List RoomEntry)
  | statusInfo (instanceId : String) (version : String) (draining : Bool)
      (rooms : Nat) (uptime : Nat)
  | drainResult (draining : Bool)
deriving DecidableEq, Repr

/-- An HTTP response: status code and JSON body (204 has no body). -/
structure Response where
  status : Nat
  body : Option RespBody
deriving DecidableEq, Repr

/-- Embeds `jsonResponse` (part_004 lines 20-28); headers are constant
there and are not modelled. -/
def jsonResponse (body : RespBody) (status : Nat) : Response :=
  { status := status, body := some body }

/-- Embeds `noContentResponse` (part_004 lines 30-35). -/
def noContentResponse : Response :=
  { status := 204, body := none }

/-- Embeds `normalizePathname` (part_004 lines 37-42): strip one
trailing slash unless the path is just "/". -/
def normalizePathname (pathname : String) : String :=
  if 1 < pathname.data.length then
    if pathname.data.getLast? = some '/' then String.mk pathname.data.dropLast
    else pathname
  else pathname

/-- Embeds `hasValidSecret` (part_004 lines 44-47):
`Boolean(provided && provided === secret)` — an absent header is
`null` (falsy) and an empty-string header is falsy as well, so the
check passes exactly when the header is present, non-empty and equal
to the secret. -/
def hasValidSecret (provided : Option String) (secret : String) : Bool :=
  match provided with
  | none => false
  | some p => p != "" && p == secret

/-- Embeds the /health branch (part_004 lines 60-82). -/
def healthResponse (now : String) (uptime : Nat) (cfg : Config) (st : SfuState) : Response :=
  let healthyWorkers := st.workers.filter (fun w => !w.closed)
  let healthData := RespBody.health
    (if 0 < healthyWorkers.length then "healthy" else "unhealthy")
    now uptime cfg.port
    st.workers.length healthyWorkers.length
    (st.workers.length - healthyWorkers.length)
  if 0 < healthyWorkers.length then jsonResponse healthData 200
  else jsonResponse healthData 503

/-- Embeds the tenant-header default of the /rooms branch (part_004
line 89): `request.headers.get("x-sfu-client") || "default"` — both an
absent and an empty header fall back to "default". -/
def effectiveClientId (header : Option String) : String :=
  match header with
  | none => "default"
  | some s => if s = "" then "default" else s

/-- Embeds the /rooms branch (part_004 lines 84-98). -/
def roomsResponse (cfg : Config) (st : SfuState) (req : Request) : Response :=
  if hasValidSecret req.secretHeader cfg.sfuSecret then
    let clientId := effectiveClientId req.clientHeader
    let roomDetails := (st.rooms.filter (fun r => r.clientId == clientId)).map
      (fun r => RoomEntry.mk r.id r.clientCount)
    jsonResponse (RespBody.roomList roomDetails) 200
  else jsonResponse (RespBody.errorMsg "Unauthorized") 401

/-- Embeds the /status branch (part_004 lines 100-112). -/
def statusResponse (uptime : Nat) (cfg : Config) (st : SfuState) (req : Request) : Response :=
  if hasValidSecret req.secretHeader cfg.sfuSecret then
    jsonResponse (RespBody.statusInfo cfg.instanceId cfg.version st.isDraining
      st.rooms.length uptime) 200
  else jsonResponse (RespBody.errorMsg "Unauthorized") 401

/-- Looks up `body?.draining` on a parsed JSON value: only an object
has the field; `JSON.parse` keeps the last duplicate key. -/
def drainingField : JsonVal → Option JsonVal
  | JsonVal.jobj fields =>
      (fields.reverse.find? (fun p => p.1 == "draining")).map (fun p => p.2)
  | _ => none

/-- Embeds the /drain branch (part_004 lines 114-133): 401 without a
valid secret, 400 on an unparsable body or a missing/non-boolean
`draining` field, otherwise set the flag and answer 200. -/
def drainResponse (cfg : Config) (st : SfuState) (req : Request) : Response × SfuState :=
  if hasValidSecret req.secretHeader cfg.sfuSecret then
    match req.body with
    | none => (jsonResponse (RespBody.errorMsg "Invalid JSON body") 400, st)
    | some bodyVal =>
      match drainingField bodyVal with
      | some (JsonVal.jbool b) =>
          (jsonResponse (RespBody.drainResult b) 200, { st with isDraining := b })
      | _ => (jsonResponse (RespBody.errorMsg "Invalid draining flag") 400, st)
  else (jsonResponse (RespBody.errorMsg "Unauthorized") 401, st)

/-- Embeds `createSfuApp`'s `fetch` dispatcher (part_004 lines 53-136):
OPTIONS first, then the four endpoints on the normalized pathname,
else 404.  `now` and `uptime` stand for the impure timestamp and
`process.uptime()` reads. -/
def fetch (now : String) (uptime : Nat) (cfg : Config) (st : SfuState)
    (req : Request) : Response × SfuState :=
  if req.method = Method.OPTIONS then (noContentResponse, st)
  else
    let pathname := normalizePathname req.path
    if req.method = Method.GET ∧ pathname = "/health" then
      (healthResponse now uptime cfg st, st)
    else if req.method = Method.GET ∧ pathname = "/rooms" then
      (roomsResponse cfg st req, st)
    else if req.method = Method.GET ∧ pathname = "/status" then
      (statusResponse uptime cfg st req, st)
    else if req.method = Method.POST ∧ pathname = "/drain" then
      drainResponse cfg st req
    else (jsonResponse (RespBody.errorMsg "Not found") 404, st)

/-- Observable lifecycle events of `createSfuServer` (part_004 lines
163-233), in the order its `start`/`stop` perform them. -/
inductive TEvent
  | poolInit
  | listenerBind
  | engineClose
  | ioClose
  | listenerStop
  | roomClose (id : String)
  | roomsClear
  | workerClose (id : Nat)
  | workerCloseFailed (id : Nat)
  | workersClear
deriving DecidableEq, Repr

/-- The server's mutable lifecycle state: whether the Bun listener is
bound (`httpServer` non-null) plus the fleet state. -/
structure ServerState where
  httpServer : Bool
  state : SfuState
deriving DecidableEq, Repr

/-- Embeds `start` (part_004 lines 174-197): a no-op when a listener
is already bound, otherwise it awaits `initMediaSoup(state)` (the
worker-pool initialization, emitted as `poolInit`) and only then binds
the listener (`listenerBind`). -/
def start (s : ServerState) : ServerState × List TEvent :=
  if s.httpServer then (s, [])
  else ({ s with httpServer := true }, [TEvent.poolInit, TEvent.listenerBind])

/-- The native `worker.close()` call, which may throw (modelled by
`closeThrows`); on success the worker is closed. -/
def closeWorkerHandle (w : Worker) : Except String Worker :=
  if w.closeThrows then Except.error "worker close failed"
  else Except.ok { w with closed := true }

/-- Embeds the worker-shutdown loop of `stop` (part_004 lines
213-219): each close is attempted under try/catch, a throwing worker
is logged (`workerCloseFailed`) and the loop continues with the
rest. Returns the workers after the close attempts and the emitted
events. -/
def closeWorkers : List Worker → List Worker × List TEvent
  | [] => ([], [])
  | w :: ws =>
    let rest := closeWorkers ws
    match closeWorkerHandle w with
    | Except.ok w2 => (w2 :: rest.1, TEvent.workerClose w.id :: rest.2)
    | Except.error _ => (w :: rest.1, TEvent.workerCloseFailed w.id :: rest.2)

/-- Embeds `stop` (part_004 lines 199-221), in the source's order:
`engine.close()`, `io.close()`, stop the Bun listener if bound, close
every room then clear the rooms map, then close every worker under
try/catch then empty the workers list. -/
def stop (s : ServerState) : ServerState × List TEvent :=
  let sigTrace := [TEvent.engineClose, TEvent.ioClose]
  let listenerTrace := if s.httpServer then [TEvent.listenerStop] else []
  let roomTrace := s.state.rooms.map (fun r => TEvent.roomClose r.id)
  let workerResult := closeWorkers s.state.workers
  ({ httpServer := false, state := { s.state with rooms := [], workers := [] } },
    sigTrace ++ listenerTrace ++ roomTrace ++ [TEvent.roomsClear] ++
      workerResult.2 ++ [TEvent.workersClear])

/-- Modelled from the spec: the teardown order claim C1 asserts for
`stop` — signaling accept path first, then every room, then the
HTTP/WS listener, then every worker, then clearing both in-memory
collections.  Written to be compared against the trace `stop`
actually produces. -/
def specClaimedStopTrace (s : ServerState) : List TEvent :=
  [TEvent.engineClose, TEvent.ioClose] ++
    s.state.rooms.map (fun r => TEvent.roomClose r.id) ++
    (if s.httpServer then [TEvent.listenerStop] else []) ++
    (closeWorkers s.state.workers).2 ++
    [TEvent.roomsClear, TEvent.workersClear]

/-- The control-plane error taxonomy (§7 of the specification). -/
inductive SfuError
  | validation
  | draining
  | workerUnavailable
  | engineFailure
deriving DecidableEq, Repr

/-- Modelled from the spec: the HTTP status each control-plane error
surfaces as (§7) — DrainingError is surfaced as 503. -/
def errorStatus : SfuError → Nat
  | SfuError.validation => 400
  | SfuError.draining => 503
  | SfuError.workerUnavailable => 503
  | SfuError.engineFailure => 500

/-- Room lookup in the registry by room id. -/
def findRoom (st : SfuState) (roomId : String) : Option Room :=
  st.rooms.find? (fun r => r.id == roomId)

/-- The healthy worker with the fewest bound rooms (ties keep the
earlier worker). -/
def leastLoaded (w : Worker) : List Worker → Worker
  | [] => w
  | x :: xs => leastLoaded (if x.roomCount < w.roomCount then x else w) xs

/-- Modelled from the spec: `WorkerPool.acquireWorkerForNewRoom`
(§4.1, not under src/) — selects the least-loaded not-closed worker,
failing with WorkerUnavailableError when none exists. -/
def acquireWorkerForNewRoom (workers : List Worker) : Except SfuError Worker :=
  match workers.filter (fun w => !w.closed) with
  | [] => Except.error SfuError.workerUnavailable
  | w :: ws => Except.ok (leastLoaded w ws)

/-- Modelled from the spec: `RoomRegistry.getOrCreate` (§4.2, not
under src/) — an existing room is returned unchanged; an absent room
fails with DrainingError while draining, otherwise a worker is
acquired and the room constructed. -/
def getOrCreate (st : SfuState) (roomId : String) (tenant : String) :
    Except SfuError (Room × SfuState) :=
  match findRoom st roomId with
  | some r => Except.ok (r, st)
  | none =>
    if st.isDraining then Except.error SfuError.draining
    else
      match acquireWorkerForNewRoom st.workers with
      | Except.error e => Except.error e
      | Except.ok w =>
        let room : Room :=
          { id := roomId, clientId := tenant, workerId := w.id,
            sessions := [], clientCount := 0 }
        Except.ok (room, { st with rooms := st.rooms ++ [room] })

/-- Modelled from the spec: session insertion of the admission
algorithm (§4.3 steps 3-4, not under src/) — an existing sessionId is
a reconnect updated in place, otherwise a new session is inserted and
clientCount increments by exactly one. -/
def addOrUpdateSession (room : Room) (sessionId : String) (displayName : String) : Room :=
  if room.sessions.any (fun s => s.id == sessionId) then
    { room with
      sessions := room.sessions.map fun s =>
        if s.id == sessionId then { s with displayName := displayName } else s }
  else
    { room with
      sessions := room.sessions ++ [Session.mk sessionId displayName],
      clientCount := room.clientCount + 1 }

/-- Replace a room in the registry by id. -/
def updateRoom (st : SfuState) (room : Room) : SfuState :=
  { st with rooms := st.rooms.map (fun r => if r.id == room.id then room else r) }

/-- Modelled from the spec: the `AdmissionController` join protocol
(§4.3, not under src/) — validate the ids, get-or-create the room,
then add or update the session. -/
def joinRoom (st : SfuState) (roomId : String) (sessionId : String)
    (tenant : String) (displayName : String) : Except SfuError (Room × SfuState) :=
  if roomId = "" ∨ sessionId = "" then Except.error SfuError.validation
  else
    match getOrCreate st roomId tenant with
    | Except.error e => Except.error e
    | Except.ok (room, st1) =>
      let room2 := addOrUpdateSession room sessionId displayName
      Except.ok (room2, updateRoom st1 room2)

/-- A join or leave operation on one room. -/
inductive RoomOp
  | join (sessionId : String) (displayName : String)
  | leave (sessionId : String)

/-- Modelled from the spec: applying one join/leave to a room's
serialized session set (§4.2-4.3, not under src/) — leave removes the
session and decrements clientCount only when the session is present. -/
def applyRoomOp (room : Room) : RoomOp → Room
  | RoomOp.join sid name => addOrUpdateSession room sid name
  | RoomOp.leave sid =>
    if room.sessions.any (fun s => s.id == sid) then
      { room with
        sessions := room.sessions.filter (fun s => s.id != sid),
        clientCount := room.clientCount - 1 }
    else room

/-- A finite sequence of join/leave operations applied in order. -/
def applyRoomOps (room : Room) : List RoomOp → Room
  | [] => room
  | op :: rest => applyRoomOps (applyRoomOp room op) rest

/-- Whether an operation actually inserts a new session. -/
def isEffectiveAdd (room : Room) : RoomOp → Bool
  | RoomOp.join sid _ => !room.sessions.any (fun s => s.id == sid)
  | RoomOp.leave _ => false

/-- Whether an operation actually removes a session. -/
def isEffectiveRemove (room : Room) : RoomOp → Bool
  | RoomOp.leave sid => room.sessions.any (fun s => s.id == sid)
  | RoomOp.join _ _ => false

/-- Number of sessions actually added along a run. -/
def addedCount (room : Room) : List RoomOp → Nat
  | [] => 0
  | op :: rest =>
    (if isEffectiveAdd room op then 1 else 0) + addedCount (applyRoomOp room op) rest

/-- Number of sessions actually removed along a run. -/
def removedCount (room : Room) : List RoomOp → Nat
  | [] => 0
  | op :: rest =>
    (if isEffectiveRemove room op then 1 else 0) + removedCount (applyRoomOp room op) rest

/-- The per-room invariant: clientCount mirrors the session set's
size, and session ids are unique within the room. -/
def roomInvariant (room : Room) : Prop :=
  room.clientCount = room.sessions.length ∧
    (room.sessions.map Session.id).Nodup

/-- A room with no sessions yet. -/
def emptyRoom (roomId : String) (tenant : String) (workerId : Nat) : Room :=
  { id := roomId, clientId := tenant, workerId := workerId,
    sessions := [], clientCount := 0 }

/-- The secret check passes exactly when the header is present,
non-empty and equal to the configured secret. -/
theorem hasValidSecret_iff (o : Option String) (s : String) :
    hasValidSecret o s = true ↔ ∃ p, o = some p ∧ p ≠ "" ∧ p = s := by
  cases o with
  | none => simp [hasValidSecret]
  | some p =>
    simp [hasValidSecret, Bool.and_eq_true, bne_iff_ne, beq_iff_eq]

/-- Dispatch lemma: a GET whose normalized path is /rooms reaches the
/rooms handler. -/
theorem fetch_rooms_eq (now : String) (uptime : Nat) (cfg : Config) (st : SfuState)
    (req : Request) (hm : req.method = Method.GET)
    (hp : normalizePathname req.path = "/rooms") :
    fetch now uptime cfg st req = (roomsResponse cfg st req, st) := by
  simp [fetch, hm, hp]

/-- Dispatch lemma: a GET whose normalized path is /status reaches the
/status handler. -/
theorem fetch_status_eq (now : String) (uptime : Nat) (cfg : Config) (st : SfuState)
    (req : Request) (hm : req.method = Method.GET)
    (hp : normalizePathname req.path = "/status") :
    fetch now uptime cfg st req = (statusResponse uptime cfg st req, st) := by
  simp [fetch, hm, hp]

/-- Dispatch lemma: a POST whose normalized path is /drain reaches the
/drain handler. -/
theorem fetch_drain_eq (now : String) (uptime : Nat) (cfg : Config) (st : SfuState)
    (req : Request) (hm : req.method = Method.POST)
    (hp : normalizePathname req.path = "/drain") :
    fetch now uptime cfg st req = drainResponse cfg st req := by
  simp [fetch, hm, hp]

/-- With a valid secret the /drain handler answers 200 or 400, never
401. -/
theorem drainResponse_status_of_valid (cfg : Config) (st : SfuState) (req : Request)
    (hv : hasValidSecret req.secretHeader cfg.sfuSecret = true) :
    (drainResponse cfg st req).1.status = 200 ∨
      (drainResponse cfg st req).1.status = 400 := by
  simp only [drainResponse, hv, if_true]
  cases req.body with
  | none => simp [jsonResponse]
  | some v =>
    cases hd : drainingField v with
    | none => simp [hd, jsonResponse]
    | some jv => cases jv <;> simp [hd, jsonResponse]

/-- C3 counterexample: with the configured secret "" and the secret
header present and string-equal (""), the claim demands authorization,
but the code answers 401 Unauthorized (an empty header is falsy in
`Boolean(provided && provided === secret)`). -/
theorem secret_check_counterexample :
    ((some "" : Option String) ≠ none ∧ ("" : String) = "") ∧
    (fetch "t" 0 (Config.mk 3000 "" "i" "v" false) (SfuState.mk [] [] false)
        (Request.mk Method.GET "/status" (some "") none none)).1 =
      Response.mk 401 (some (RespBody.errorMsg "Unauthorized")) := by
  refine ⟨⟨by simp, rfl⟩, by decide⟩

/-- C3 (amended): a request to /rooms, /status or /drain is authorized
exactly when the secret header is present, non-empty and string-equal
to the configured secret; otherwise the response is 401 with body
error "Unauthorized" and the state is unchanged. -/
theorem secret_check_amended
    (now : String) (uptime : Nat) (cfg : Config) (st : SfuState) (req : Request)
    (h : (req.method = Method.GET ∧ normalizePathname req.path = "/rooms") ∨
         (req.method = Method.GET ∧ normalizePathname req.path = "/status") ∨
         (req.method = Method.POST ∧ normalizePathname req.path = "/drain")) :
    ((fetch now uptime cfg st req).1 =
        Response.mk 401 (some (RespBody.errorMsg "Unauthorized")) ∧
      (fetch now uptime cfg st req).2 = st) ↔
      ¬ ∃ p, req.secretHeader = some p ∧ p ≠ "" ∧ p = cfg.sfuSecret := by
  by_cases hv : hasValidSecret req.secretHeader cfg.sfuSecret = true
  · have hr : ∃ p, req.secretHeader = some p ∧ p ≠ "" ∧ p = cfg.sfuSecret :=
      (hasValidSecret_iff req.secretHeader cfg.sfuSecret).mp hv
    simp only [hr, not_true_eq_false, iff_false]
    intro hcon
    rcases h with ⟨hm, hp⟩ | ⟨hm, hp⟩ | ⟨hm, hp⟩
    · rw [fetch_rooms_eq now uptime cfg st req hm hp] at hcon
      simp [roomsResponse, hv, jsonResponse] at hcon
    · rw [fetch_status_eq now uptime cfg st req hm hp] at hcon
      simp [statusResponse, hv, jsonResponse] at hcon
    · rw [fetch_drain_eq now uptime cfg st req hm hp] at hcon
      have hst : (drainResponse cfg st req).1.status = 401 := by
        rw [hcon.1]
      rcases drainResponse_status_of_valid cfg st req hv with h2 | h2 <;> omega
  · have hv2 : hasValidSecret req.secretHeader cfg.sfuSecret = false :=
      Bool.not_eq_true _ ▸ Bool.of_not_eq_true hv
    have hnr : ¬ ∃ p, req.secretHeader = some p ∧ p ≠ "" ∧ p = cfg.sfuSecret :=
      fun hc => hv ((hasValidSecret_iff req.secretHeader cfg.sfuSecret).mpr hc)
    simp only [hnr, not_false_eq_true, iff_true]
    rcases h with ⟨hm, hp⟩ | ⟨hm, hp⟩ | ⟨hm, hp⟩
    · rw [fetch_rooms_eq now uptime cfg st req hm hp]
      simp [roomsResponse, hv2, jsonResponse]
    · rw [fetch_status_eq now uptime cfg st req hm hp]
      simp [statusResponse, hv2, jsonResponse]
    · rw [fetch_drain_eq now uptime cfg st req hm hp]
      simp [drainResponse, hv2, jsonResponse]

/-- C3 witness: a /rooms request with a wrong secret gets 401 and
leaves the state untouched. -/
theorem secret_check_amended_witness :
    ((fetch "t" 0 (Config.mk 3000 "s" "i" "v" false) (SfuState.mk [] [] false)
        (Request.mk Method.GET "/rooms" (some "wrong") none none)).1 =
        Response.mk 401 (some (RespBody.errorMsg "Unauthorized")) ∧
      (fetch "t" 0 (Config.mk 3000 "s" "i" "v" false) (SfuState.mk [] [] false)
        (Request.mk Method.GET "/rooms" (some "wrong") none none)).2 =
        SfuState.mk [] [] false) ↔
      ¬ ∃ p, (some "wrong" : Option String) = some p ∧ p ≠ "" ∧ p = "s" :=
  secret_check_amended "t" 0 (Config.mk 3000 "s" "i" "v" false)
    (SfuState.mk [] [] false)
    (Request.mk Method.GET "/rooms" (some "wrong") none none)
    (Or.inl ⟨rfl, by decide⟩)

/-- C2: for every fleet state, GET /health answers 503 exactly when
every worker is closed (vacuously so for an empty fleet), otherwise
200, and the reported healthy count equals total minus closed. -/
theorem health_503_iff_all_workers_closed
    (now : String) (uptime : Nat) (cfg : Config) (st : SfuState) (req : Request)
    (hm : req.method = Method.GET) (hp : normalizePathname req.path = "/health") :
    ((fetch now uptime cfg st req).1.status = 503 ↔ ∀ w ∈ st.workers, w.closed = true) ∧
    ((fetch now uptime cfg st req).1.status = 503 ∨
      (fetch now uptime cfg st req).1.status = 200) ∧
    (∃ s total healthy closedCount,
      (fetch now uptime cfg st req).1.body =
        some (RespBody.health s now uptime cfg.port total healthy closedCount) ∧
      total = st.workers.length ∧ healthy = total - closedCount) := by
  have hfetch : fetch now uptime cfg st req = (healthResponse now uptime cfg st, st) := by
    simp [fetch, hm, hp]
  rw [hfetch]
  by_cases hpos : 0 < (st.workers.filter (fun w => !w.closed)).length
  · have hresp : healthResponse now uptime cfg st =
        jsonResponse (RespBody.health "healthy" now uptime cfg.port
          st.workers.length (st.workers.filter (fun w => !w.closed)).length
          (st.workers.length - (st.workers.filter (fun w => !w.closed)).length)) 200 := by
      simp [healthResponse, hpos]
    rw [hresp]
    refine ⟨?_, Or.inr rfl, ?_⟩
    · simp only [jsonResponse]
      constructor
      · intro h; omega
      · intro hall
        exfalso
        rcases List.exists_mem_of_length_pos hpos with ⟨w, hw⟩
        have hmem := List.mem_filter.mp hw
        have := hall w hmem.1
        simp [this] at hmem
    · refine ⟨"healthy", st.workers.length,
        (st.workers.filter (fun w => !w.closed)).length,
        st.workers.length - (st.workers.filter (fun w => !w.closed)).length,
        rfl, rfl, ?_⟩
      have hle := List.length_filter_le (fun w => !w.closed) st.workers
      omega
  · have hresp : healthResponse now uptime cfg st =
        jsonResponse (RespBody.health "unhealthy" now uptime cfg.port
          st.workers.length (st.workers.filter (fun w => !w.closed)).length
          (st.workers.length - (st.workers.filter (fun w => !w.closed)).length)) 503 := by
      simp only [healthResponse]
      rw [if_neg hpos, if_neg hpos]
    rw [hresp]
    refine ⟨?_, Or.inl rfl, ?_⟩
    · simp only [jsonResponse]
      constructor
      · intro _ w hw
        by_contra hc
        have hwmem : w ∈ st.workers.filter (fun w => !w.closed) := by
          refine List.mem_filter.mpr ⟨hw, ?_⟩
          simp [hc]
        have : 0 < (st.workers.filter (fun w => !w.closed)).length :=
          List.length_pos.mpr (List.ne_nil_of_mem hwmem)
        exact hpos this
      · intro _; trivial
    · refine ⟨"unhealthy", st.workers.length,
        (st.workers.filter (fun w => !w.closed)).length,
        st.workers.length - (st.workers.filter (fun w => !w.closed)).length,
        rfl, rfl, ?_⟩
      have hle := List.length_filter_le (fun w => !w.closed) st.workers
      omega

/-- C2 witness: a fleet with one open and one closed worker is healthy
and reports healthy = total - closed. -/
theorem health_503_iff_all_workers_closed_witness :
    ((fetch "t" 5 (Config.mk 3000 "s" "i" "v" false)
        (SfuState.mk [Worker.mk 0 false 0 false, Worker.mk 1 true 0 false] [] false)
        (Request.mk Method.GET "/health" none none none)).1.status = 503 ↔
      ∀ w ∈ [Worker.mk 0 false 0 false, Worker.mk 1 true 0 false], w.closed = true) :=
  (health_503_iff_all_workers_closed "t" 5 (Config.mk 3000 "s" "i" "v" false)
    (SfuState.mk [Worker.mk 0 false 0 false, Worker.mk 1 true 0 false] [] false)
    (Request.mk Method.GET "/health" none none none) rfl (by decide)).1

/-- C5: on an authorized POST /drain, an unparsable body or a
missing/non-boolean draining field answers 400 and leaves the flag
unchanged; a boolean field sets the flag and answers 200 with that
value; repeating the same request yields the same 200 response and the
same state (idempotent). -/
theorem drain_endpoint
    (now : String) (uptime : Nat) (cfg : Config) (st : SfuState) (req : Request)
    (hm : req.method = Method.POST) (hp : normalizePathname req.path = "/drain")
    (hs : hasValidSecret req.secretHeader cfg.sfuSecret = true) :
    (req.body = none →
      fetch now uptime cfg st req =
        (Response.mk 400 (some (RespBody.errorMsg "Invalid JSON body")), st)) ∧
    (∀ j, req.body = some j → (∀ b, drainingField j ≠ some (JsonVal.jbool b)) →
      fetch now uptime cfg st req =
        (Response.mk 400 (some (RespBody.errorMsg "Invalid draining flag")), st)) ∧
    (∀ j b, req.body = some j → drainingField j = some (JsonVal.jbool b) →
      fetch now uptime cfg st req =
        (Response.mk 200 (some (RespBody.drainResult b)), { st with isDraining := b }) ∧
      fetch now uptime cfg (fetch now uptime cfg st req).2 req =
        (Response.mk 200 (some (RespBody.drainResult b)), { st with isDraining := b })) := by
  rw [fetch_drain_eq now uptime cfg st req hm hp]
  refine ⟨?_, ?_, ?_⟩
  · intro hb
    simp [drainResponse, hs, hb, jsonResponse]
  · intro j hb hnb
    simp only [drainResponse, hs, if_true, hb]
    cases hd : drainingField j with
    | none => simp [hd, jsonResponse]
    | some jv =>
      cases jv with
      | jbool b => exact absurd hd (hnb b)
      | jnull => simp [hd, jsonResponse]
      | jnum n => simp [hd, jsonResponse]
      | jstr s => simp [hd, jsonResponse]
      | jarr xs => simp [hd, jsonResponse]
      | jobj fs => simp [hd, jsonResponse]
  · intro j b hb hd
    have h1 : drainResponse cfg st req =
        (Response.mk 200 (some (RespBody.drainResult b)), { st with isDraining := b }) := by
      simp [drainResponse, hs, hb, hd, jsonResponse]
    refine ⟨h1, ?_⟩
    rw [h1]
    rw [fetch_drain_eq now uptime cfg { st with isDraining := b } req hm hp]
    simp [drainResponse, hs, hb, hd, jsonResponse]

/-- C5 witness: toggling draining on via /drain answers 200 and doing
it twice answers 200 again with the same state. -/
theorem drain_endpoint_witness :
    fetch "t" 0 (Config.mk 3000 "s" "i" "v" false) (SfuState.mk [] [] false)
      (Request.mk Method.POST "/drain" (some "s") none
        (some (JsonVal.jobj [("draining", JsonVal.jbool true)]))) =
      (Response.mk 200 (some (RespBody.drainResult true)), SfuState.mk [] [] true) :=
  ((drain_endpoint "t" 0 (Config.mk 3000 "s" "i" "v" false) (SfuState.mk [] [] false)
      (Request.mk Method.POST "/drain" (some "s") none
        (some (JsonVal.jobj [("draining", JsonVal.jbool true)])))
      rfl (by decide) (by decide)).2.2
    (JsonVal.jobj [("draining", JsonVal.jbool true)]) true rfl rfl).1

/-- C8: an authorized GET /rooms with a non-empty tenant header a
lists exactly the rooms whose clientId is a, as id/clientCount pairs
only; assuming the registry's unique-room-id invariant, no listed
entry can be a room of another tenant. -/
theorem rooms_listing_tenant_scoped
    (now : String) (uptime : Nat) (cfg : Config) (st : SfuState) (req : Request)
    (hm : req.method = Method.GET) (hp : normalizePathname req.path = "/rooms")
    (hs : hasValidSecret req.secretHeader cfg.sfuSecret = true)
    (a : String) (ha : req.clientHeader = some a) (hne : a ≠ "") :
    (fetch now uptime cfg st req).1 =
      Response.mk 200 (some (RespBody.roomList
        ((st.rooms.filter (fun r => r.clientId == a)).map
          (fun r => RoomEntry.mk r.id r.clientCount)))) ∧
    (fetch now uptime cfg st req).2 = st ∧
    (∀ e ∈ (st.rooms.filter (fun r => r.clientId == a)).map
        (fun r => RoomEntry.mk r.id r.clientCount),
      ∃ r ∈ st.rooms, r.clientId = a ∧ e = RoomEntry.mk r.id r.clientCount) ∧
    (∀ r ∈ st.rooms, r.clientId = a →
      RoomEntry.mk r.id r.clientCount ∈
        (st.rooms.filter (fun r => r.clientId == a)).map
          (fun r => RoomEntry.mk r.id r.clientCount)) ∧
    ((st.rooms.map Room.id).Nodup → ∀ r ∈ st.rooms, r.clientId ≠ a →
      ∀ e ∈ (st.rooms.filter (fun r => r.clientId == a)).map
          (fun r => RoomEntry.mk r.id r.clientCount),
        e.id ≠ r.id) := by
  have hf : fetch now uptime cfg st req = (roomsResponse cfg st req, st) :=
    fetch_rooms_eq now uptime cfg st req hm hp
  refine ⟨?_, ?_, ?_, ?_, ?_⟩
  · rw [hf]
    simp [roomsResponse, hs, effectiveClientId, ha, hne, jsonResponse]
  · rw [hf]
  · intro e he
    rcases List.mem_map.mp he with ⟨r, hrf, rfl⟩
    have hmem := List.mem_filter.mp hrf
    exact ⟨r, hmem.1, by simpa using hmem.2, rfl⟩
  · intro r hr hcl
    exact List.mem_map.mpr ⟨r, List.mem_filter.mpr ⟨hr, by simp [hcl]⟩, rfl⟩
  · intro hnd r hr hrne e he
    rcases List.mem_map.mp he with ⟨r2, hrf, rfl⟩
    have hmem := List.mem_filter.mp hrf
    intro hid
    have : r2 = r := List.inj_on_of_nodup_map hnd hmem.1 hr hid
    apply hrne
    rw [← this]
    simpa using hmem.2

/-- C8 witness: with rooms of tenants A and B, the listing for A is
exactly the A room. -/
theorem rooms_listing_tenant_scoped_witness :
    (fetch "t" 0 (Config.mk 3000 "s" "i" "v" false)
        (SfuState.mk []
          [Room.mk "r1" "A" 0 [] 2, Room.mk "r2" "B" 0 [] 1] false)
        (Request.mk Method.GET "/rooms" (some "s") (some "A") none)).1 =
      Response.mk 200 (some (RespBody.roomList
        (([Room.mk "r1" "A" 0 [] 2, Room.mk "r2" "B" 0 [] 1].filter
            (fun r => r.clientId == "A")).map
          (fun r => RoomEntry.mk r.id r.clientCount)))) :=
  (rooms_listing_tenant_scoped "t" 0 (Config.mk 3000 "s" "i" "v" false)
    (SfuState.mk [] [Room.mk "r1" "A" 0 [] 2, Room.mk "r2" "B" 0 [] 1] false)
    (Request.mk Method.GET "/rooms" (some "s") (some "A") none)
    rfl (by decide) (by decide) "A" rfl (by decide)).1

/-- C10: an authorized GET /rooms whose tenant header is absent or
empty does not fail: it answers 200 with exactly the rooms of the
tenant "default". -/
theorem rooms_listing_default_tenant
    (now : String) (uptime : Nat) (cfg : Config) (st : SfuState) (req : Request)
    (hm : req.method = Method.GET) (hp : normalizePathname req.path = "/rooms")
    (hs : hasValidSecret req.secretHeader cfg.sfuSecret = true)
    (hdef : req.clientHeader = none ∨ req.clientHeader = some "") :
    (fetch now uptime cfg st req).1 =
      Response.mk 200 (some (RespBody.roomList
        ((st.rooms.filter (fun r => r.clientId == "default")).map
          (fun r => RoomEntry.mk r.id r.clientCount)))) ∧
    (fetch now uptime cfg st req).2 = st := by
  have hf : fetch now uptime cfg st req = (roomsResponse cfg st req, st) :=
    fetch_rooms_eq now uptime cfg st req hm hp
  rw [hf]
  rcases hdef with hd | hd
  · exact ⟨by simp [roomsResponse, hs, effectiveClientId, hd, jsonResponse], rfl⟩
  · exact ⟨by simp [roomsResponse, hs, effectiveClientId, hd, jsonResponse], rfl⟩

/-- C10 witness: with no tenant header, only the "default" rooms are
listed. -/
theorem rooms_listing_default_tenant_witness :
    (fetch "t" 0 (Config.mk 3000 "s" "i" "v" false)
        (SfuState.mk []
          [Room.mk "r1" "default" 0 [] 3, Room.mk "r2" "A" 0 [] 1] false)
        (Request.mk Method.GET "/rooms" (some "s") none none)).1 =
      Response.mk 200 (some (RespBody.roomList
        (([Room.mk "r1" "default" 0 [] 3, Room.mk "r2" "A" 0 [] 1].filter
            (fun r => r.clientId == "default")).map
          (fun r => RoomEntry.mk r.id r.clientCount)))) :=
  (rooms_listing_default_tenant "t" 0 (Config.mk 3000 "s" "i" "v" false)
    (SfuState.mk [] [Room.mk "r1" "default" 0 [] 3, Room.mk "r2" "A" 0 [] 1] false)
    (Request.mk Method.GET "/rooms" (some "s") none none)
    rfl (by decide) (by decide) (Or.inl rfl)).1

/-- C1 counterexample: for a bound server with one room and one
worker, the teardown trace the code produces stops the listener
before closing the room and clears the rooms map before closing the
workers, so it differs from the order the claim asserts. -/
theorem stop_order_counterexample :
    (stop (ServerState.mk true
        (SfuState.mk [Worker.mk 0 false 0 false] [Room.mk "r1" "A" 0 [] 1] false))).2 ≠
      specClaimedStopTrace (ServerState.mk true
        (SfuState.mk [Worker.mk 0 false 0 false] [Room.mk "r1" "A" 0 [] 1] false)) ∧
    (stop (ServerState.mk true
        (SfuState.mk [Worker.mk 0 false 0 false] [Room.mk "r1" "A" 0 [] 1] false))).2 =
      [TEvent.engineClose, TEvent.ioClose, TEvent.listenerStop,
        TEvent.roomClose "r1", TEvent.roomsClear, TEvent.workerClose 0,
        TEvent.workersClear] := by
  exact ⟨by decide, by decide⟩

/-- C1 (amended): every call to stop() tears down in this order —
close the signaling channel's accept path (engine then io), then stop
the HTTP/WS listener (when bound), then close every room in the
registry and clear the rooms map, then close every worker (errors
collected) and empty the workers list; afterwards both collections
are empty and no listener is bound. -/
theorem stop_teardown_order (s : ServerState) :
    (stop s).2 =
      [TEvent.engineClose, TEvent.ioClose] ++
        (if s.httpServer then [TEvent.listenerStop] else []) ++
        s.state.rooms.map (fun r => TEvent.roomClose r.id) ++ [TEvent.roomsClear] ++
        (closeWorkers s.state.workers).2 ++ [TEvent.workersClear] ∧
    (stop s).1.state.rooms = [] ∧
    (stop s).1.state.workers = [] ∧
    (stop s).1.httpServer = false :=
  ⟨rfl, rfl, rfl, rfl⟩

/-- C6: start() is idempotent — with a listener already bound it does
nothing, and from an unbound state two calls initialize the worker
pool strictly before binding the listener, exactly once each. -/
theorem start_idempotent_pool_before_listener (s : ServerState) :
    (s.httpServer = true → start s = (s, [])) ∧
    (s.httpServer = false →
      (start s).2 = [TEvent.poolInit, TEvent.listenerBind] ∧
      (start s).1.httpServer = true ∧
      start (start s).1 = ((start s).1, []) ∧
      ((start s).2 ++ (start (start s).1).2).count TEvent.listenerBind = 1 ∧
      ((start s).2 ++ (start (start s).1).2).count TEvent.poolInit = 1) := by
  constructor
  · intro h
    simp [start, h]
  · intro h
    have h1 : start s =
        ({ s with httpServer := true }, [TEvent.poolInit, TEvent.listenerBind]) := by
      simp [start, h]
    have h2 : start ({ s with httpServer := true } : ServerState) =
        (({ s with httpServer := true } : ServerState), []) := by
      simp [start]
    rw [h1]
    refine ⟨rfl, rfl, h2, ?_, ?_⟩ <;> rw [h2] <;> rfl

/-- C6 witness: starting a fresh server twice emits poolInit before
listenerBind once and the second call is a no-op. -/
theorem start_idempotent_witness :
    (start (ServerState.mk false (SfuState.mk [] [] false))).2 =
      [TEvent.poolInit, TEvent.listenerBind] ∧
    start (start (ServerState.mk false (SfuState.mk [] [] false))).1 =
      ((start (ServerState.mk false (SfuState.mk [] [] false))).1, []) :=
  ⟨((start_idempotent_pool_before_listener
      (ServerState.mk false (SfuState.mk [] [] false))).2 rfl).1,
   ((start_idempotent_pool_before_listener
      (ServerState.mk false (SfuState.mk [] [] false))).2 rfl).2.2.1⟩

/-- The worker-shutdown loop preserves the number of workers and emits
one event per worker. -/
theorem closeWorkers_length (ws : List Worker) :
    (closeWorkers ws).1.length = ws.length ∧
      (closeWorkers ws).2.length = ws.length := by
  induction ws with
  | nil => simp [closeWorkers]
  | cons w ws ih =>
    by_cases hb : w.closeThrows = true <;>
      simp [closeWorkers, closeWorkerHandle, hb, ih.1, ih.2]

/-- Per-worker outcome of the shutdown loop: a non-throwing worker
comes out closed with a workerClose event; a throwing worker is kept
as-is with a workerCloseFailed event. -/
theorem closeWorkers_mem (ws : List Worker) (w : Worker) (hw : w ∈ ws) :
    (w.closeThrows = false →
      { w with closed := true } ∈ (closeWorkers ws).1 ∧
      TEvent.workerClose w.id ∈ (closeWorkers ws).2) ∧
    (w.closeThrows = true →
      w ∈ (closeWorkers ws).1 ∧
      TEvent.workerCloseFailed w.id ∈ (closeWorkers ws).2) := by
  induction ws with
  | nil => cases hw
  | cons x xs ih =>
    rcases List.mem_cons.mp hw with rfl | hw2
    · constructor
      · intro hb
        simp [closeWorkers, closeWorkerHandle, hb]
      · intro hb
        simp [closeWorkers, closeWorkerHandle, hb]
    · have ih2 := ih hw2
      constructor
      · intro hb
        by_cases hx : x.closeThrows = true <;>
          simp [closeWorkers, closeWorkerHandle, hx, (ih2.1 hb).1, (ih2.1 hb).2]
      · intro hb
        by_cases hx : x.closeThrows = true <;>
          simp [closeWorkers, closeWorkerHandle, hx, (ih2.2 hb).1, (ih2.2 hb).2]

/-- C7: during stop(), every worker's close is attempted (one event
per worker); a worker whose close throws yields a caught
workerCloseFailed event and does not prevent the others from closing;
stop always completes, ending with an emptied worker list. -/
theorem stop_worker_close_failure_tolerated
    (s : ServerState) (w : Worker) (hw : w ∈ s.state.workers) :
    (closeWorkers s.state.workers).2.length = s.state.workers.length ∧
    (w.closeThrows = false →
      { w with closed := true } ∈ (closeWorkers s.state.workers).1 ∧
      TEvent.workerClose w.id ∈ (stop s).2) ∧
    (w.closeThrows = true →
      TEvent.workerCloseFailed w.id ∈ (stop s).2) ∧
    (stop s).1.state.workers = [] := by
  have hmem := closeWorkers_mem s.state.workers w hw
  have htr : (stop s).2 =
      [TEvent.engineClose, TEvent.ioClose] ++
        (if s.httpServer then [TEvent.listenerStop] else []) ++
        s.state.rooms.map (fun r => TEvent.roomClose r.id) ++ [TEvent.roomsClear] ++
        (closeWorkers s.state.workers).2 ++ [TEvent.workersClear] := rfl
  refine ⟨(closeWorkers_length s.state.workers).2, ?_, ?_, rfl⟩
  · intro hb
    refine ⟨(hmem.1 hb).1, ?_⟩
    rw [htr]
    simp [List.mem_append, (hmem.1 hb).2]
  · intro hb
    rw [htr]
    simp [List.mem_append, (hmem.2 hb).2]

/-- C7 witness: with workers 1, 2, 3 where worker 2's close throws,
stop still closes workers 1 and 3 and records the caught failure for
worker 2. -/
theorem stop_worker_close_failure_witness :
    TEvent.workerClose 1 ∈ (stop (ServerState.mk true (SfuState.mk
      [Worker.mk 1 false 0 false, Worker.mk 2 false 0 true, Worker.mk 3 false 0 false]
      [] false))).2 ∧
    TEvent.workerCloseFailed 2 ∈ (stop (ServerState.mk true (SfuState.mk
      [Worker.mk 1 false 0 false, Worker.mk 2 false 0 true, Worker.mk 3 false 0 false]
      [] false))).2 ∧
    TEvent.workerClose 3 ∈ (stop (ServerState.mk true (SfuState.mk
      [Worker.mk 1 false 0 false, Worker.mk 2 false 0 true, Worker.mk 3 false 0 false]
      [] false))).2 ∧
    Worker.mk 1 true 0 false ∈ (closeWorkers
      [Worker.mk 1 false 0 false, Worker.mk 2 false 0 true, Worker.mk 3 false 0 false]).1 ∧
    Worker.mk 3 true 0 false ∈ (closeWorkers
      [Worker.mk 1 false 0 false, Worker.mk 2 false 0 true, Worker.mk 3 false 0 false]).1 :=
  ⟨((stop_worker_close_failure_tolerated _ (Worker.mk 1 false 0 false)
      (by decide)).2.1 rfl).2,
   (stop_worker_close_failure_tolerated
      (ServerState.mk true (SfuState.mk
        [Worker.mk 1 false 0 false, Worker.mk 2 false 0 true, Worker.mk 3 false 0 false]
        [] false)) (Worker.mk 2 false 0 true) (by decide)).2.2.1 rfl,
   ((stop_worker_close_failure_tolerated _ (Worker.mk 3 false 0 false)
      (by decide)).2.1 rfl).2,
   ((stop_worker_close_failure_tolerated
      (ServerState.mk true (SfuState.mk
        [Worker.mk 1 false 0 false, Worker.mk 2 false 0 true, Worker.mk 3 false 0 false]
        [] false)) (Worker.mk 1 false 0 false) (by decide)).2.1 rfl).1,
   ((stop_worker_close_failure_tolerated
      (ServerState.mk true (SfuState.mk
        [Worker.mk 1 false 0 false, Worker.mk 2 false 0 true, Worker.mk 3 false 0 false]
        [] false)) (Worker.mk 3 false 0 false) (by decide)).2.1 rfl).1⟩

/-- Adding or updating a session never changes the room's id. -/
theorem addOrUpdateSession_id (room : Room) (sid : String) (name : String) :
    (addOrUpdateSession room sid name).id = room.id := by
  by_cases h : room.sessions.any (fun s => s.id == sid) = true <;>
    simp [addOrUpdateSession, h]

/-- C4: with the fleet draining, admission for an unknown roomId fails
with DrainingError (surfaced as 503) and creates no room, while
admission into an already-registered room still succeeds; moreover
toggling the draining flag over /drain leaves the room registry
untouched. -/
theorem draining_blocks_only_new_rooms
    (st : SfuState) (roomId sessionId tenant name : String)
    (hd : st.isDraining = true) (hr : roomId ≠ "") (hs : sessionId ≠ "") :
    (findRoom st roomId = none →
      joinRoom st roomId sessionId tenant name = Except.error SfuError.draining ∧
      getOrCreate st roomId tenant = Except.error SfuError.draining ∧
      errorStatus SfuError.draining = 503) ∧
    (∀ r, findRoom st roomId = some r →
      ∃ r2 st2, joinRoom st roomId sessionId tenant name = Except.ok (r2, st2) ∧
        r2.id = r.id ∧ st2.rooms.length = st.rooms.length) ∧
    (∀ now uptime cfg req b,
      req.method = Method.POST → normalizePathname req.path = "/drain" →
      hasValidSecret req.secretHeader cfg.sfuSecret = true →
      req.body = some (JsonVal.jobj [("draining", JsonVal.jbool b)]) →
      (fetch now uptime cfg st req).2.rooms = st.rooms) := by
  refine ⟨?_, ?_, ?_⟩
  · intro hnone
    have hg : getOrCreate st roomId tenant = Except.error SfuError.draining := by
      simp [getOrCreate, hnone, hd]
    exact ⟨by simp [joinRoom, hr, hs, hg], hg, rfl⟩
  · intro r hsome
    have hg : getOrCreate st roomId tenant = Except.ok (r, st) := by
      simp [getOrCreate, hsome]
    refine ⟨addOrUpdateSession r sessionId name,
      updateRoom st (addOrUpdateSession r sessionId name), ?_,
      addOrUpdateSession_id r sessionId name, by simp [updateRoom]⟩
    simp [joinRoom, hr, hs, hg]
  · intro now uptime cfg req b hm hp hsec hbody
    rw [fetch_drain_eq now uptime cfg st req hm hp]
    have hdf : drainingField (JsonVal.jobj [("draining", JsonVal.jbool b)]) =
        some (JsonVal.jbool b) := rfl
    simp [drainResponse, hsec, hbody, hdf]

/-- C4 witness: in a draining fleet holding room r1, joining unknown
room r2 fails with DrainingError while joining r1 still succeeds. -/
theorem draining_blocks_only_new_rooms_witness :
    joinRoom (SfuState.mk [] [Room.mk "r1" "A" 0 [Session.mk "s1" "n"] 1] true)
      "r2" "sess" "A" "nm" = Except.error SfuError.draining ∧
    ∃ r2 st2,
      joinRoom (SfuState.mk [] [Room.mk "r1" "A" 0 [Session.mk "s1" "n"] 1] true)
        "r1" "sess" "A" "nm" = Except.ok (r2, st2) ∧
      r2.id = (Room.mk "r1" "A" 0 [Session.mk "s1" "n"] 1).id ∧
      st2.rooms.length =
        (SfuState.mk [] [Room.mk "r1" "A" 0 [Session.mk "s1" "n"] 1] true).rooms.length :=
  ⟨((draining_blocks_only_new_rooms
      (SfuState.mk [] [Room.mk "r1" "A" 0 [Session.mk "s1" "n"] 1] true)
      "r2" "sess" "A" "nm" rfl (by decide) (by decide)).1 (by decide)).1,
   (draining_blocks_only_new_rooms
      (SfuState.mk [] [Room.mk "r1" "A" 0 [Session.mk "s1" "n"] 1] true)
      "r1" "sess" "A" "nm" rfl (by decide) (by decide)).2.1
     (Room.mk "r1" "A" 0 [Session.mk "s1" "n"] 1) (by decide)⟩

/-- Adding or updating a session preserves the room invariant. -/
theorem addOrUpdateSession_invariant (room : Room) (sid : String) (name : String)
    (h : roomInvariant room) : roomInvariant (addOrUpdateSession room sid name) := by
  by_cases hany : room.sessions.any (fun s => s.id == sid) = true
  · have hsess : (addOrUpdateSession room sid name).sessions =
        room.sessions.map
          (fun s => if s.id == sid then { s with displayName := name } else s) := by
      simp [addOrUpdateSession, hany]
    have hcc : (addOrUpdateSession room sid name).clientCount = room.clientCount := by
      simp [addOrUpdateSession, hany]
    have hid : ((addOrUpdateSession room sid name).sessions).map Session.id =
        room.sessions.map Session.id := by
      rw [hsess, List.map_map]
      apply List.map_congr_left
      intro s _
      by_cases hx : s.id = sid <;> simp [hx]
    constructor
    · rw [hcc, hsess, List.length_map]
      exact h.1
    · rw [roomInvariant] at h
      show ((addOrUpdateSession room sid name).sessions.map Session.id).Nodup
      rw [hid]
      exact h.2
  · have hnotin : sid ∉ room.sessions.map Session.id := by
      intro hmem
      rcases List.mem_map.mp hmem with ⟨s, hsmem, hsid⟩
      exact hany (List.any_eq_true.mpr ⟨s, hsmem, by simp [hsid]⟩)
    constructor
    · simp [addOrUpdateSession, hany, h.1]
    · simp only [addOrUpdateSession, hany, if_false, Bool.false_eq_true]
      simp [List.nodup_append, h.2, hnotin]

/-- With unique session ids, removing a present session shrinks the
set by exactly one. -/
theorem filter_remove_length (l : List Session) (sid : String)
    (hnd : (l.map Session.id).Nodup)
    (hany : l.any (fun s => s.id == sid) = true) :
    (l.filter (fun s => s.id != sid)).length + 1 = l.length := by
  induction l with
  | nil => cases hany
  | cons x xs ih =>
    have hndc := hnd
    rw [List.map_cons, List.nodup_cons] at hndc
    by_cases hx : x.id = sid
    · have hrest : xs.filter (fun s => s.id != sid) = xs := by
        apply List.filter_eq_self.mpr
        intro s hsmem
        have hne : s.id ≠ sid := by
          intro hc
          exact hndc.1 (List.mem_map.mpr ⟨s, hsmem, by rw [hc, hx]⟩)
        simpa using hne
      simp [List.filter_cons, hx, hrest]
    · have hany2 : xs.any (fun s => s.id == sid) = true := by
        rcases List.any_eq_true.mp hany with ⟨s, hsmem, hsid⟩
        rcases List.mem_cons.mp hsmem with rfl | hsmem2
        · exact absurd (by simpa using hsid) hx
        · exact List.any_eq_true.mpr ⟨s, hsmem2, hsid⟩
      have := ih hndc.2 hany2
      simp only [List.filter_cons]
      have hxne : (x.id != sid) = true := by simpa using hx
      rw [hxne]
      simp only [if_true, List.length_cons]
      omega

/-- Applying one join/leave preserves the room invariant. -/
theorem applyRoomOp_invariant (room : Room) (op : RoomOp)
    (h : roomInvariant room) : roomInvariant (applyRoomOp room op) := by
  cases op with
  | join sid name => exact addOrUpdateSession_invariant room sid name h
  | leave sid =>
    by_cases hany : room.sessions.any (fun s => s.id == sid) = true
    · have hlen := filter_remove_length room.sessions sid h.2 hany
      constructor
      · simp only [applyRoomOp, hany, if_true]
        have := h.1
        omega
      · simp only [applyRoomOp, hany, if_true]
        have hsub : List.Sublist
            ((room.sessions.filter (fun s => s.id != sid)).map Session.id)
            (room.sessions.map Session.id) :=
          (List.filter_sublist room.sessions).map Session.id
        exact h.2.sublist hsub
    · have hroom : applyRoomOp room (RoomOp.leave sid) = room := by
        simp [applyRoomOp, hany]
      rw [hroom]
      exact h

/-- One step of the effective-add/effective-remove accounting. -/
theorem applyRoomOp_count (room : Room) (op : RoomOp) (h : roomInvariant room) :
    (applyRoomOp room op).clientCount +
        (if isEffectiveRemove room op then 1 else 0) =
      room.clientCount + (if isEffectiveAdd room op then 1 else 0) := by
  cases op with
  | join sid name =>
    by_cases hany : room.sessions.any (fun s => s.id == sid) = true <;>
      simp [applyRoomOp, addOrUpdateSession, isEffectiveAdd, isEffectiveRemove, hany]
  | leave sid =>
    by_cases hany : room.sessions.any (fun s => s.id == sid) = true
    · have hpos : 0 < room.sessions.length := by
        rcases List.any_eq_true.mp hany with ⟨s, hsmem, _⟩
        exact List.length_pos.mpr (List.ne_nil_of_mem hsmem)
      have hcc := h.1
      simp [applyRoomOp, isEffectiveAdd, isEffectiveRemove, hany]
      omega
    · simp [applyRoomOp, isEffectiveAdd, isEffectiveRemove, hany]

/-- The accounting extended over a whole run of operations. -/
theorem applyRoomOps_count (ops : List RoomOp) (room : Room) (h : roomInvariant room) :
    roomInvariant (applyRoomOps room ops) ∧
      (applyRoomOps room ops).clientCount + removedCount room ops =
        room.clientCount + addedCount room ops := by
  induction ops generalizing room with
  | nil => exact ⟨h, by simp [applyRoomOps, addedCount, removedCount]⟩
  | cons op rest ih =>
    have h1 := applyRoomOp_invariant room op h
    have ih2 := ih (applyRoomOp room op) h1
    have hstep := applyRoomOp_count room op h
    refine ⟨ih2.1, ?_⟩
    simp only [applyRoomOps, addedCount, removedCount]
    omega

/-- C9: under the room invariant, clientCount always equals the size
of the session set after any sequence of joins and leaves; starting
from an empty room the final clientCount is exactly the number of
sessions effectively added minus those removed, and never underflows
(removals never exceed additions). -/
theorem room_client_count_invariant (ops : List RoomOp) (room : Room)
    (h : roomInvariant room) :
    (applyRoomOps room ops).clientCount = (applyRoomOps room ops).sessions.length ∧
    (applyRoomOps room ops).clientCount + removedCount room ops =
      room.clientCount + addedCount room ops ∧
    (room.clientCount = 0 →
      (applyRoomOps room ops).clientCount =
        addedCount room ops - removedCount room ops ∧
      removedCount room ops ≤ addedCount room ops) := by
  have hm := applyRoomOps_count ops room h
  refine ⟨hm.1.1, hm.2, ?_⟩
  intro h0
  omega

/-- C9 witness: from an empty room, join a, join b, leave a ends with
clientCount 1 = 2 added - 1 removed. -/
theorem room_client_count_invariant_witness :
    (applyRoomOps (emptyRoom "r" "A" 0)
        [RoomOp.join "a" "x", RoomOp.join "b" "y", RoomOp.leave "a"]).clientCount =
      addedCount (emptyRoom "r" "A" 0)
          [RoomOp.join "a" "x", RoomOp.join "b" "y", RoomOp.leave "a"] -
        removedCount (emptyRoom "r" "A" 0)
          [RoomOp.join "a" "x", RoomOp.join "b" "y", RoomOp.leave "a"] ∧
    removedCount (emptyRoom "r" "A" 0)
        [RoomOp.join "a" "x", RoomOp.join "b" "y", RoomOp.leave "a"] ≤
      addedCount (emptyRoom "r" "A" 0)
        [RoomOp.join "a" "x", RoomOp.join "b" "y", RoomOp.leave "a"] :=
  (room_client_count_invariant
    [RoomOp.join "a" "x", RoomOp.join "b" "y", RoomOp.leave "a"]
    (emptyRoom "r" "A" 0) ⟨rfl, List.nodup_nil⟩).2.2 rfl

end Conclave
